import Mathlib

/-
  Verification of the robotica pub/sub client library (crate `robotica`).

  The development shallowly embeds the library's wire framing, descriptor
  resolution, publisher/subscriber operations and the per-node registry.
  Byte strings are `List Nat` (each entry one byte); machine integers are
  `Int`/`Nat` with explicit two's-complement conversion where the wire
  format demands it.  The `Header` protobuf message is generated from
  `proto/types.proto`, which is not part of the source tree; its shape
  (`message_timestamp: Timestamp`, `type_url: string`) is modelled from the
  spec, and its wire format follows the standard protobuf encoding that the
  generated code implements.
-/

namespace Robotica

/-- A byte string: a list of byte values. -/
abbrev ByteStr := List Nat

/-! ## Varints and length-delimited framing -/
/-- Little-endian base-128 varint encoding, as used by protobuf.  The
fuel makes the recursion structural; any fuel above the value suffices
since the value shrinks by a factor of 128 per emitted byte. -/
def varintEncodeAux : Nat → Nat → List Nat
  | 0, n => [n]
  | Nat.succ fuel, n =>
    if n < 128 then [n]
    else (n % 128 + 128) :: varintEncodeAux fuel (n / 128)

def varintEncode (n : Nat) : List Nat := varintEncodeAux n n

/-- Varint decoding: returns the value and the remaining bytes. -/
def varintDecode : List Nat → Option (Nat × List Nat)
  | [] => none
  | b :: rest =>
    if b < 128 then some (b, rest)
    else
      match varintDecode rest with
      | some (n, rest2) => some (b % 128 + 128 * n, rest2)
      | none => none

/-- Length-delimited framing: varint length prefix followed by the payload. -/
def lengthDelimited (p : List Nat) : List Nat :=
  varintEncode p.length ++ p

/-- Read one length-delimited blob off the front of a buffer. -/
def readLengthDelimited (b : List Nat) : Option (List Nat × List Nat) :=
  match varintDecode b with
  | some (len, rest) =>
    if len ≤ rest.length then some (rest.take len, rest.drop len) else none
  | none => none

/-! ## Two's-complement views of the wire integers -/
/-- The unsigned 64-bit value a signed integer is transported as. -/
def intToU64 (i : Int) : Nat := (i % (2 ^ 64 : Int)).toNat

/-- Reading an unsigned 64-bit value back as a signed 64-bit integer. -/
def u64ToInt64 (n : Nat) : Int :=
  if n < 2 ^ 63 then (n : Int) else (n : Int) - 2 ^ 64

/-- Reading an unsigned 64-bit value back as a signed 32-bit integer
(truncate, then sign-extend), as prost does for `int32` fields. -/
def u64ToInt32 (n : Nat) : Int :=
  if n % 2 ^ 32 < 2 ^ 31 then ((n % 2 ^ 32 : Nat) : Int)
  else ((n % 2 ^ 32 : Nat) : Int) - 2 ^ 32

/-! ## The Header message

Modelled from the spec: the file `proto/types.proto` defining
`Header { message_timestamp: Timestamp, type_url: string }` is compiled
offline and is not under the source tree; the structures below and their
wire codec follow the spec's description of the header and the standard
protobuf encoding of the generated code. -/
/-- The canonical well-known timestamp: seconds (`int64`) + nanos (`int32`). -/
structure Timestamp where
  seconds : Int
  nanos : Int
deriving DecidableEq

/-- Range constraint of the timestamp's machine-integer fields. -/
def Timestamp.wf (t : Timestamp) : Prop :=
  -(2 ^ 63) ≤ t.seconds ∧ t.seconds < 2 ^ 63 ∧ -(2 ^ 31) ≤ t.nanos ∧ t.nanos < 2 ^ 31

instance (t : Timestamp) : Decidable t.wf := by
  unfold Timestamp.wf
  infer_instance

/-- The frame header: a timestamp and the payload's type URL (UTF-8 bytes). -/
structure Header where
  message_timestamp : Option Timestamp
  type_url : ByteStr
deriving DecidableEq

/-- A header is well-formed when its timestamp fields are in range. -/
def Header.wf (h : Header) : Prop :=
  match h.message_timestamp with
  | some t => t.wf
  | none => True

instance (h : Header) : Decidable h.wf := by
  unfold Header.wf
  cases h.message_timestamp <;> infer_instance

/-- Body encoding of `Timestamp` (field 1 `seconds`, field 2 `nanos`, both
varint; default values are skipped, as the generated encoder does). -/
def encodeTimestampBody (t : Timestamp) : ByteStr :=
  (if t.seconds = 0 then [] else 8 :: varintEncode (intToU64 t.seconds)) ++
  (if t.nanos = 0 then [] else 16 :: varintEncode (intToU64 t.nanos))

/-- Field-by-field decoding loop for a `Timestamp` body.  The fuel bounds
the number of fields read; one unit is spent per field. -/
def decodeTimestampBody : Nat → ByteStr → Timestamp → Option Timestamp
  | _, [], acc => some acc
  | 0, _ :: _, _ => none
  | Nat.succ fuel, b :: l, acc =>
    match varintDecode (b :: l) with
    | none => none
    | some (tag, rest) =>
      if tag = 8 then
        match varintDecode rest with
        | some (v, rest2) =>
          decodeTimestampBody fuel rest2 { acc with seconds := u64ToInt64 v }
        | none => none
      else if tag = 16 then
        match varintDecode rest with
        | some (v, rest2) =>
          decodeTimestampBody fuel rest2 { acc with nanos := u64ToInt32 v }
        | none => none
      else none

/-- Body encoding of `Header` (field 1 `message_timestamp`, a submessage;
field 2 `type_url`, length-delimited bytes; defaults skipped). -/
def encodeHeaderBody (h : Header) : ByteStr :=
  (match h.message_timestamp with
   | some t => 10 :: lengthDelimited (encodeTimestampBody t)
   | none => []) ++
  (if h.type_url = [] then [] else 18 :: lengthDelimited h.type_url)

/-- Field-by-field decoding loop for a `Header` body. -/
def decodeHeaderBody : Nat → ByteStr → Header → Option Header
  | _, [], acc => some acc
  | 0, _ :: _, _ => none
  | Nat.succ fuel, b :: l, acc =>
    match varintDecode (b :: l) with
    | none => none
    | some (tag, rest) =>
      if tag = 10 then
        match readLengthDelimited rest with
        | some (sub, rest2) =>
          match decodeTimestampBody (sub.length + 2) sub { seconds := 0, nanos := 0 } with
          | some t => decodeHeaderBody fuel rest2 { acc with message_timestamp := some t }
          | none => none
        | none => none
      else if tag = 18 then
        match readLengthDelimited rest with
        | some (s, rest2) => decodeHeaderBody fuel rest2 { acc with type_url := s }
        | none => none
      else none

/-- `Header::encode_length_delimited_to_vec`. -/
def Header.encodeLengthDelimited (h : Header) : ByteStr :=
  lengthDelimited (encodeHeaderBody h)

/-- `Header::decode_length_delimited` on a byte cursor: strips the length
prefix, decodes that many bytes, returns the header and the remainder. -/
def Header.decodeLengthDelimited (b : ByteStr) : Option (Header × ByteStr) :=
  match readLengthDelimited b with
  | some (body, rest) =>
    match decodeHeaderBody (body.length + 2) body { message_timestamp := none, type_url := [] } with
    | some h => some (h, rest)
    | none => none
  | none => none

/-! ## Errors (`src/lib.rs`, `enum Error`; only the variants the embedded
operations can produce are represented) -/
inductive Error
  | mismatchedSubscriberType (expected actual : ByteStr)
  | protobufDecode
  | protobufDescriptorRead
  | invalidTypeUrl (s : ByteStr)
  | serdeJson
deriving DecidableEq

/-! ## Typed messages

A compile-time protobuf schema `M` is a type together with the encoder,
decoder and type URL that `prost::Message` and `prost::Name` provide for
it.  The codec functions are external generated code; the round-trip law
`Lawful` is prost's contract and is assumed where a claim needs it and
discharged on a concrete codec in the witnesses. -/
structure ProtoCodec (M : Type) where
  typeUrl : ByteStr
  encode : M → ByteStr
  decode : ByteStr → Option M

/-- prost's round-trip contract for a generated codec. -/
def ProtoCodec.Lawful {M : Type} (c : ProtoCodec M) : Prop :=
  ∀ m, c.decode (c.encode m) = some m

/-- `Message::encode_length_delimited_to_vec`. -/
def ProtoCodec.encodeLengthDelimited {M : Type} (c : ProtoCodec M) (m : M) : ByteStr :=
  lengthDelimited (c.encode m)

/-- `Message::decode_length_delimited` on a byte cursor. -/
def ProtoCodec.decodeLengthDelimited {M : Type} (c : ProtoCodec M) (b : ByteStr) :
    Option (M × ByteStr) :=
  match readLengthDelimited b with
  | some (p, rest) =>
    match c.decode p with
    | some m => some (m, rest)
    | none => none
  | none => none

/-! ## Pubsub registry (`src/lib.rs`, `PubsubData`)

The two `HashSet<String>` fields are modelled as duplicate-free lists:
`insertTopic` is `HashSet::insert` (no-op when present) and dropping a
handle removes its topic with `filter` (`HashSet::remove`). -/
structure PubsubData where
  publishers : List ByteStr
  subscribers : List ByteStr
deriving DecidableEq

/-- `HashSet::insert` on a topic set. -/
def insertTopic (t : ByteStr) (l : List ByteStr) : List ByteStr :=
  if t ∈ l then l else t :: l

/-- `HashSet::remove` on a topic set. -/
def removeTopic (t : ByteStr) (l : List ByteStr) : List ByteStr :=
  l.filter (fun x => x != t)

/-! ## Typed publisher (`src/publisher.rs`, `Publisher`) -/
/-- `Publisher::send`: the frame put on the transport is the
length-delimited header (current time, the schema's type URL) followed by
the length-delimited message.  `now` stands for `SystemTime::now()`. -/
def Publisher.sendFrame {M : Type} (c : ProtoCodec M) (now : Timestamp) (message : M) :
    ByteStr :=
  Header.encodeLengthDelimited { message_timestamp := some now, type_url := c.typeUrl } ++
    c.encodeLengthDelimited message

/-! ## Typed subscriber (`src/subscriber.rs`, `Subscriber`) -/
/-- What `Subscriber::recv` returns. -/
structure ReceivedMessage (M : Type) where
  header : Header
  message : M

/-- `Subscriber::recv`, applied to the bytes of one queued frame: decode
the header, compare its type URL with the compile-time one, decode the
payload on match, fail with `MismatchedSubscriberType` otherwise. -/
def Subscriber.recvDecode {M : Type} (c : ProtoCodec M) (bytes : ByteStr) :
    Except Error (Header × M) :=
  match Header.decodeLengthDelimited bytes with
  | none => Except.error Error.protobufDecode
  | some (header, byteRef) =>
    if header.type_url = c.typeUrl then
      match c.decodeLengthDelimited byteRef with
      | some (m, _) => Except.ok (header, m)
      | none => Except.error Error.protobufDecode
    else
      Except.error (Error.mismatchedSubscriberType c.typeUrl header.type_url)

/-- One `recv` call against the inbound queue: blocks (`none`) on an empty
queue, otherwise consumes the head frame and decodes it. -/
def Subscriber.recvStep {M : Type} (c : ProtoCodec M) (queue : List ByteStr) :
    Option (Except Error (Header × M) × List ByteStr) :=
  match queue with
  | [] => none
  | frame :: rest => some (Subscriber.recvDecode c frame, rest)

/-! ## Descriptors and type-URL resolution (`src/proto.rs`)

A message descriptor is abstract except for the reflection operations the
library invokes on it: dynamic decode, dynamic encode, and JSON
deserialization (`prost_reflect`).  `Dyn` is the type of dynamic messages
and `J` the type of JSON values. -/
structure MessageDescriptor (Dyn J : Type) where
  decode : ByteStr → Option Dyn
  encodeDyn : Dyn → ByteStr
  deserializeJson : J → Option Dyn

/-- A descriptor pool indexes descriptors by fully-qualified message name
(`DescriptorPool::get_message_by_name`). -/
abbrev DescriptorPool (Dyn J : Type) := List (ByteStr × MessageDescriptor Dyn J)

def getMessageByName {Dyn J : Type} (pool : DescriptorPool Dyn J) (name : ByteStr) :
    Option (MessageDescriptor Dyn J) :=
  (pool.find? (fun e => e.1 == name)).map (fun e => e.2)

/-- Rust `str::split` with a one-character separator: the list of chunks
between occurrences of the separator. -/
def rustSplit (sep : Nat) : ByteStr → List ByteStr
  | [] => [[]]
  | b :: rest =>
    if b = sep then [] :: rustSplit sep rest
    else
      match rustSplit sep rest with
      | chunk :: chunks => (b :: chunk) :: chunks
      | [] => [[b]]

/-- `message_name_from_type_url`: `type_url.split('/').nth(1)`, with
`InvalidTypeUrl(type_url)` when there is no second chunk (47 is the byte
of the slash character). -/
def message_name_from_type_url (type_url : ByteStr) : Except Error ByteStr :=
  match (rustSplit 47 type_url).get? 1 with
  | some name => Except.ok name
  | none => Except.error (Error.invalidTypeUrl type_url)

/-- `search_file_descriptors`: split off the message name, then return the
first pool's match in insertion order, else `InvalidTypeUrl(message_name)`. -/
def search_file_descriptors {Dyn J : Type} (file_descriptor_pools : List (DescriptorPool Dyn J))
    (type_url : ByteStr) : Except Error (MessageDescriptor Dyn J) :=
  match message_name_from_type_url type_url with
  | Except.error e => Except.error e
  | Except.ok message_name =>
    match file_descriptor_pools.findSome? (fun pool => getMessageByName pool message_name) with
    | some d => Except.ok d
    | none => Except.error (Error.invalidTypeUrl message_name)

/-- `parse_file_descriptors`: decode each descriptor-set blob into a pool,
in order, failing on the first bad blob.  `decodePool` stands for
`DescriptorPool::decode`. -/
def parse_file_descriptors {Dyn J Blob : Type}
    (decodePool : Blob → Except Error (DescriptorPool Dyn J)) (file_descriptors_bytes : List Blob) :
    Except Error (List (DescriptorPool Dyn J)) :=
  file_descriptors_bytes.mapM decodePool

/-! ## The node's descriptor blob list (`src/lib.rs`, `Node`) -/
structure NodeDescriptors (Blob : Type) where
  file_descriptor : List Blob

/-- `Node::new` starts from the library's own descriptor set. -/
def NodeDescriptors.new {Blob : Type} (defaultBlob : Blob) : NodeDescriptors Blob :=
  { file_descriptor := [defaultBlob] }

/-- `Node::add_file_descriptors` pushes a user blob at the end. -/
def NodeDescriptors.add_file_descriptors {Blob : Type} (n : NodeDescriptors Blob) (b : Blob) :
    NodeDescriptors Blob :=
  { file_descriptor := n.file_descriptor ++ [b] }

/-! ## Untyped publisher (`src/publisher.rs`, `UntypedPublisher`) -/
structure UntypedPublisher (Dyn J : Type) where
  message_descriptor : MessageDescriptor Dyn J
  type_url : ByteStr
  topic : ByteStr

/-- `UntypedPublisher::new_from_session`.  The boolean records whether the
transport publisher was declared.  In the source the descriptors are
parsed and the type URL resolved before `declare_publisher` and before the
registry insert, so a resolution failure leaves both untouched. -/
def UntypedPublisher.new_from_session {Dyn J Blob : Type}
    (decodePool : Blob → Except Error (DescriptorPool Dyn J))
    (topic type_url : ByteStr) (pubsub_data : PubsubData)
    (file_descriptors_bytes : List Blob) :
    Except Error (UntypedPublisher Dyn J) × Bool × PubsubData :=
  match parse_file_descriptors decodePool file_descriptors_bytes with
  | Except.error e => (Except.error e, false, pubsub_data)
  | Except.ok file_descriptor_pools =>
    match search_file_descriptors file_descriptor_pools type_url with
    | Except.error e => (Except.error e, false, pubsub_data)
    | Except.ok message_descriptor =>
      (Except.ok { message_descriptor := message_descriptor, type_url := type_url,
                   topic := topic },
       true,
       { pubsub_data with publishers := insertTopic topic pubsub_data.publishers })

/-- `UntypedPublisher::send`: deserialize the JSON value through the
retained descriptor, then emit the standard header+payload frame with the
constructor's type URL. -/
def UntypedPublisher.sendFrame {Dyn J : Type} (p : UntypedPublisher Dyn J)
    (now : Timestamp) (json_value : J) : Except Error ByteStr :=
  match p.message_descriptor.deserializeJson json_value with
  | none => Except.error Error.serdeJson
  | some dyn_message =>
    Except.ok
      (Header.encodeLengthDelimited { message_timestamp := some now, type_url := p.type_url } ++
        lengthDelimited (p.message_descriptor.encodeDyn dyn_message))

/-! ## Typed subscriber construction (`src/subscriber.rs`) -/
/-- The state a typed subscriber holds besides its phantom schema. -/
structure SubscriberState where
  topic : ByteStr
  queueCapacity : Nat

/-- `Subscriber::new_from_session`: declare a transport subscriber with a
bounded queue of 100 frames and register the topic. -/
def Subscriber.new_from_session (topic : ByteStr) (pubsub_data : PubsubData) :
    SubscriberState × PubsubData :=
  ({ topic := topic, queueCapacity := 100 },
   { pubsub_data with subscribers := insertTopic topic pubsub_data.subscribers })

/-! ## Untyped subscriber (`src/subscriber.rs`, `UntypedSubscriber`) -/
structure UntypedSubscriber (Dyn J : Type) where
  file_descriptor_pools : List (DescriptorPool Dyn J)
  active_message_descriptor : Option (ByteStr × MessageDescriptor Dyn J)
  topic : ByteStr
  queueCapacity : Nat

/-- `UntypedSubscriber::new_from_session`: declare with a bounded queue of
100, parse the descriptor blobs, start with an empty one-slot cache. -/
def UntypedSubscriber.new_from_session {Dyn J Blob : Type}
    (decodePool : Blob → Except Error (DescriptorPool Dyn J))
    (topic : ByteStr) (file_descriptors_bytes : List Blob) (pubsub_data : PubsubData) :
    Except Error (UntypedSubscriber Dyn J) × PubsubData :=
  match parse_file_descriptors decodePool file_descriptors_bytes with
  | Except.error e => (Except.error e, pubsub_data)
  | Except.ok file_descriptor_pools =>
    (Except.ok { file_descriptor_pools := file_descriptor_pools,
                 active_message_descriptor := none,
                 topic := topic, queueCapacity := 100 },
     { pubsub_data with subscribers := insertTopic topic pubsub_data.subscribers })

/-- `UntypedSubscriber::get_message_descriptor`.  The Rust code `take()`s
the cache slot and reinstalls it only on success, so the `?` on a failed
registry lookup returns with the slot left `None`. -/
def UntypedSubscriber.get_message_descriptor {Dyn J : Type} (s : UntypedSubscriber Dyn J)
    (type_url : ByteStr) :
    Except Error (MessageDescriptor Dyn J) × UntypedSubscriber Dyn J :=
  match s.active_message_descriptor with
  | some (active_type_url, message_descriptor) =>
    if active_type_url = type_url then
      (Except.ok message_descriptor,
       { s with active_message_descriptor := some (active_type_url, message_descriptor) })
    else
      match search_file_descriptors s.file_descriptor_pools type_url with
      | Except.ok d =>
        (Except.ok d, { s with active_message_descriptor := some (type_url, d) })
      | Except.error e =>
        (Except.error e, { s with active_message_descriptor := none })
  | none =>
    match search_file_descriptors s.file_descriptor_pools type_url with
    | Except.ok d =>
      (Except.ok d, { s with active_message_descriptor := some (type_url, d) })
    | Except.error e =>
      (Except.error e, { s with active_message_descriptor := none })

/-- `UntypedSubscriber::recv` applied to the bytes of one queued frame:
decode the header, fetch the descriptor for the header's type URL through
the one-slot cache, explicitly read the payload's varint length, and
dynamically decode that many bytes.  (The Rust slice `byte_ref[..len]`
assumes a well-formed frame; `take` is its value on such frames.) -/
def UntypedSubscriber.recvDecode {Dyn J : Type} (s : UntypedSubscriber Dyn J)
    (bytes : ByteStr) :
    Except Error (Header × Dyn) × UntypedSubscriber Dyn J :=
  match Header.decodeLengthDelimited bytes with
  | none => (Except.error Error.protobufDecode, s)
  | some (header, byteRef) =>
    match s.get_message_descriptor header.type_url with
    | (Except.error e, s2) => (Except.error e, s2)
    | (Except.ok d, s2) =>
      match varintDecode byteRef with
      | none => (Except.error Error.protobufDecode, s2)
      | some (len, byteRef2) =>
        match d.decode (byteRef2.take len) with
        | some m => (Except.ok (header, m), s2)
        | none => (Except.error Error.protobufDecode, s2)

/-- Successive `recv` calls over a delivered frame sequence, threading the
subscriber state (and with it the one-slot cache). -/
def UntypedSubscriber.recvAll {Dyn J : Type} (s : UntypedSubscriber Dyn J) :
    List ByteStr → List (Except Error (Header × Dyn))
  | [] => []
  | frame :: frames =>
    (s.recvDecode frame).1 :: (s.recvDecode frame).2.recvAll frames

/-- The one-slot cache invariant: whatever is cached is exactly what a
fresh registry lookup of the cached type URL yields. -/
def UntypedSubscriber.cacheConsistent {Dyn J : Type} (s : UntypedSubscriber Dyn J) : Prop :=
  ∀ u d, s.active_message_descriptor = some (u, d) →
    search_file_descriptors s.file_descriptor_pools u = Except.ok d

/-! ## Handle lifecycles against the registry (`src/lib.rs`, `src/publisher.rs`,
`src/subscriber.rs`)

Creating a publisher or subscriber inserts its topic into the matching
registry set; `Drop` removes the topic from the set (`HashSet::remove`,
which logs a warning when the entry is already gone but removes
unconditionally).  Handles are tracked by an identifier so that several
live handles may share a topic. -/
inductive LifecycleOp
  | createPub (h : Nat) (topic : ByteStr)
  | dropPub (h : Nat)
  | createSub (h : Nat) (topic : ByteStr)
  | dropSub (h : Nat)

structure LifecycleState where
  registry : PubsubData
  livePubs : List (Nat × ByteStr)
  liveSubs : List (Nat × ByteStr)
deriving DecidableEq

def initialLifecycleState : LifecycleState :=
  { registry := { publishers := [], subscribers := [] }, livePubs := [], liveSubs := [] }

def applyOp (s : LifecycleState) : LifecycleOp → LifecycleState
  | LifecycleOp.createPub h t =>
    { s with registry := { s.registry with publishers := insertTopic t s.registry.publishers },
             livePubs := (h, t) :: s.livePubs }
  | LifecycleOp.dropPub h =>
    match s.livePubs.find? (fun e => e.1 == h) with
    | some e =>
      { s with registry := { s.registry with publishers := removeTopic e.2 s.registry.publishers },
               livePubs := s.livePubs.filter (fun e2 => e2.1 != h) }
    | none => s
  | LifecycleOp.createSub h t =>
    { s with registry := { s.registry with subscribers := insertTopic t s.registry.subscribers },
             liveSubs := (h, t) :: s.liveSubs }
  | LifecycleOp.dropSub h =>
    match s.liveSubs.find? (fun e => e.1 == h) with
    | some e =>
      { s with registry := { s.registry with subscribers := removeTopic e.2 s.registry.subscribers },
               liveSubs := s.liveSubs.filter (fun e2 => e2.1 != h) }
    | none => s

/-- Create two publishers on the same topic, then drop the first. -/
def sharedTopicOps : List LifecycleOp :=
  [LifecycleOp.createPub 0 [116], LifecycleOp.createPub 1 [116], LifecycleOp.dropPub 0]

/-- The bytes after the first slash of a byte string, when one occurs. -/
def partAfterFirstSlash : ByteStr → Option ByteStr
  | [] => none
  | b :: rest => if b = 47 then some rest else partAfterFirstSlash rest

/-! ## Concrete instances used to exercise the theorems -/
/-- A one-field boolean message codec in protobuf wire format (field 1,
varint; the default `false` encodes to nothing). -/
def boolCodec : ProtoCodec Bool :=
  { typeUrl := [116, 47, 98],
    encode := fun b => if b then [8, 1] else [],
    decode := fun l => if l = [] then some false else if l = [8, 1] then some true else none }

/-- A reflection descriptor that agrees with `boolCodec` field for field. -/
def boolDescriptor : MessageDescriptor Bool Bool :=
  { decode := boolCodec.decode,
    encodeDyn := boolCodec.encode,
    deserializeJson := fun j => some j }

def boolPool : DescriptorPool Bool Bool := [([98], boolDescriptor)]

def boolUntypedSubscriber : UntypedSubscriber Bool Bool :=
  { file_descriptor_pools := [boolPool], active_message_descriptor := none,
    topic := [116], queueCapacity := 100 }

/-- A descriptor over `Nat` dynamic values: decodes to the payload length. -/
def witDescriptor : MessageDescriptor Nat Nat :=
  { decode := fun b => some b.length,
    encodeDyn := fun _ => [],
    deserializeJson := fun _ => none }

def witPool : DescriptorPool Nat Nat := [([98], witDescriptor)]

def witSubscriber : UntypedSubscriber Nat Nat :=
  { file_descriptor_pools := [witPool], active_message_descriptor := none,
    topic := [116], queueCapacity := 100 }

/-- One well-formed frame with type URL 97/47/98 and payload byte 5. -/
def witFrame : ByteStr :=
  Header.encodeLengthDelimited { message_timestamp := none, type_url := [97, 47, 98] } ++
    lengthDelimited [5]

/-- A frame whose type URL resolves in no pool of `witSubscriber`. -/
def witBadFrame : ByteStr :=
  Header.encodeLengthDelimited { message_timestamp := none, type_url := [97, 47, 99] } ++
    lengthDelimited [5]

theorem varintDecodeAux_encode (fuel : Nat) :
    ∀ (n : Nat), n ≤ fuel → ∀ (rest : List Nat),
      varintDecode (varintEncodeAux fuel n ++ rest) = some (n, rest) := by
  induction fuel with
  | zero =>
    intro n hn rest
    have : n = 0 := by omega
    rw [this]
    simp [varintEncodeAux, varintDecode]
  | succ fuel ih =>
    intro n hn rest
    rw [varintEncodeAux]
    by_cases h : n < 128
    · simp [h, varintDecode]
    · have hdiv : n / 128 ≤ fuel := by
        have := Nat.div_lt_self (by omega : 0 < n) (by omega : 1 < 128)
        omega
      simp only [h, ite_false, List.cons_append]
      rw [varintDecode]
      have hge : ¬ (n % 128 + 128 < 128) := by omega
      simp only [hge, ite_false]
      rw [ih (n / 128) hdiv rest]
      have : n % 128 + 128 * (n / 128) = n := by omega
      simp [Nat.add_mod_left, this]

theorem varintDecode_encode (n : Nat) (rest : List Nat) :
    varintDecode (varintEncode n ++ rest) = some (n, rest) :=
  varintDecodeAux_encode n n (Nat.le_refl n) rest

theorem varintDecode_encode_nil (n : Nat) :
    varintDecode (varintEncode n) = some (n, []) := by
  have := varintDecode_encode n []
  simpa using this

theorem take_length_append (p rest : List Nat) : (p ++ rest).take p.length = p := by
  induction p with
  | nil => simp
  | cons a p ih => simp [ih]

theorem drop_length_append (p rest : List Nat) : (p ++ rest).drop p.length = rest := by
  induction p with
  | nil => simp
  | cons a p ih => simp [ih]

theorem readLengthDelimited_append (p rest : List Nat) :
    readLengthDelimited (lengthDelimited p ++ rest) = some (p, rest) := by
  rw [lengthDelimited, List.append_assoc, readLengthDelimited,
    varintDecode_encode p.length (p ++ rest)]
  simp [take_length_append, drop_length_append]

theorem readLengthDelimited_exact (p : List Nat) :
    readLengthDelimited (lengthDelimited p) = some (p, []) := by
  have := readLengthDelimited_append p []
  simpa using this

theorem u64ToInt64_intToU64 (i : Int) (h1 : -(2 ^ 63) ≤ i) (h2 : i < 2 ^ 63) :
    u64ToInt64 (intToU64 i) = i := by
  simp only [u64ToInt64, intToU64]
  split <;> omega

theorem u64ToInt32_intToU64 (i : Int) (h1 : -(2 ^ 31) ≤ i) (h2 : i < 2 ^ 31) :
    u64ToInt32 (intToU64 i) = i := by
  simp only [u64ToInt32, intToU64]
  split <;> omega

theorem Header.wf_mk_some (t : Timestamp) (u : ByteStr) :
    Header.wf { message_timestamp := some t, type_url := u } = t.wf := rfl

theorem decodeTimestampBody_encode (t : Timestamp) (ht : t.wf) (fuel : Nat) :
    decodeTimestampBody (fuel + 2) (encodeTimestampBody t) { seconds := 0, nanos := 0 } =
      some t := by
  obtain ⟨s, n⟩ := t
  obtain ⟨h1, h2, h3, h4⟩ := ht
  simp only at h1 h2 h3 h4
  by_cases hs : s = 0 <;> by_cases hn : n = 0 <;>
    simp [encodeTimestampBody, hs, hn, decodeTimestampBody, varintDecode,
      varintDecode_encode, varintDecode_encode_nil,
      u64ToInt64_intToU64 s h1 h2, u64ToInt32_intToU64 n h3 h4]

theorem decodeHeaderBody_encode (h : Header) (hw : h.wf) (fuel : Nat) :
    decodeHeaderBody (fuel + 2) (encodeHeaderBody h)
      { message_timestamp := none, type_url := [] } = some h := by
  obtain ⟨mt, url⟩ := h
  cases mt with
  | none =>
    by_cases hu : url = [] <;>
      simp [encodeHeaderBody, hu, decodeHeaderBody, varintDecode, varintDecode_encode,
        varintDecode_encode_nil, readLengthDelimited_append, readLengthDelimited_exact]
  | some t =>
    have ht : t.wf := hw
    by_cases hu : url = [] <;>
      simp [encodeHeaderBody, hu, decodeHeaderBody, varintDecode, varintDecode_encode,
        varintDecode_encode_nil, readLengthDelimited_append, readLengthDelimited_exact,
        decodeTimestampBody_encode t ht]

theorem Header.decode_encode (h : Header) (hw : h.wf) (rest : ByteStr) :
    Header.decodeLengthDelimited (h.encodeLengthDelimited ++ rest) = some (h, rest) := by
  rw [Header.encodeLengthDelimited, Header.decodeLengthDelimited,
    readLengthDelimited_append]
  simp [decodeHeaderBody_encode h hw]

theorem recvDecode_sendFrame {M : Type} (c : ProtoCodec M) (hc : c.Lawful)
    (now : Timestamp) (hnow : now.wf) (m : M) :
    Subscriber.recvDecode c (Publisher.sendFrame c now m) =
      Except.ok ({ message_timestamp := some now, type_url := c.typeUrl }, m) := by
  have hw : Header.wf { message_timestamp := some now, type_url := c.typeUrl } := hnow
  rw [Publisher.sendFrame, Subscriber.recvDecode,
    Header.decode_encode _ hw (c.encodeLengthDelimited m)]
  simp [ProtoCodec.encodeLengthDelimited, ProtoCodec.decodeLengthDelimited,
    readLengthDelimited_exact, hc m]

theorem recvDecode_mismatch {M : Type} (c : ProtoCodec M) (header : Header)
    (hw : header.wf) (payload : ByteStr) (hne : header.type_url ≠ c.typeUrl) :
    Subscriber.recvDecode c (header.encodeLengthDelimited ++ payload) =
      Except.error (Error.mismatchedSubscriberType c.typeUrl header.type_url) := by
  rw [Subscriber.recvDecode, Header.decode_encode header hw payload]
  simp [hne]

/-! ### Facts about splitting and searching -/
theorem rustSplit_ne_nil (sep : Nat) (l : ByteStr) : rustSplit sep l ≠ [] := by
  induction l with
  | nil => simp [rustSplit]
  | cons b rest ih =>
    rw [rustSplit]
    by_cases h : b = sep
    · simp [h]
    · simp only [h, ite_false]
      cases hsp : rustSplit sep rest with
      | nil => simp
      | cons chunk chunks => simp

theorem rustSplit_no_sep (sep : Nat) (l : ByteStr) (h : sep ∉ l) :
    rustSplit sep l = [l] := by
  induction l with
  | nil => rfl
  | cons b rest ih =>
    have hb : ¬ b = sep := by
      intro hb
      exact h (hb ▸ List.mem_cons_self b rest)
    have hrest : sep ∉ rest := fun hm => h (List.mem_cons_of_mem b hm)
    rw [rustSplit]
    simp [hb, ih hrest]

theorem rustSplit_sep_append (sep : Nat) (pre post : ByteStr) (h : sep ∉ pre) :
    rustSplit sep (pre ++ sep :: post) = pre :: rustSplit sep post := by
  induction pre with
  | nil => simp [rustSplit]
  | cons b pre ih =>
    have hb : ¬ b = sep := by
      intro hb
      exact h (hb ▸ List.mem_cons_self b pre)
    have hpre : sep ∉ pre := fun hm => h (List.mem_cons_of_mem b hm)
    rw [List.cons_append, rustSplit]
    simp [hb, ih hpre]

theorem rustSplit_head (sep : Nat) (l : ByteStr) :
    (rustSplit sep l).get? 0 = some (l.takeWhile (fun b => b != sep)) := by
  induction l with
  | nil => rfl
  | cons b rest ih =>
    rw [rustSplit]
    by_cases hb : b = sep
    · simp [hb, List.takeWhile]
    · simp only [hb, ite_false]
      cases hsp : rustSplit sep rest with
      | nil => exact absurd hsp (rustSplit_ne_nil sep rest)
      | cons chunk chunks =>
        rw [hsp] at ih
        simp only [List.get?_cons_zero, Option.some.injEq] at ih
        have hbt : (b != sep) = true := by simp [hb]
        simp [List.takeWhile, hbt, ih]

/-- When a slash is present, the code selects the chunk between the first
slash and the next one. -/
theorem message_name_second_chunk (pre post : ByteStr) (h : (47 : Nat) ∉ pre) :
    message_name_from_type_url (pre ++ 47 :: post) =
      Except.ok (post.takeWhile (fun b => b != 47)) := by
  rw [message_name_from_type_url, rustSplit_sep_append 47 pre post h]
  have hh := rustSplit_head 47 post
  cases hsp : rustSplit 47 post with
  | nil => exact absurd hsp (rustSplit_ne_nil 47 post)
  | cons chunk chunks =>
    rw [hsp] at hh
    simp only [List.get?_cons_zero, Option.some.injEq] at hh
    simp [hh]

/-- Without a slash, resolution fails with `InvalidTypeUrl` of the whole URL. -/
theorem message_name_no_sep (url : ByteStr) (h : (47 : Nat) ∉ url) :
    message_name_from_type_url url = Except.error (Error.invalidTypeUrl url) := by
  rw [message_name_from_type_url, rustSplit_no_sep 47 url h]
  rfl

theorem findSome?_first_hit {Dyn J : Type} (name : ByteStr) (d : MessageDescriptor Dyn J)
    (ps1 ps2 : List (DescriptorPool Dyn J)) (pool : DescriptorPool Dyn J)
    (hmiss : ∀ p ∈ ps1, getMessageByName p name = none)
    (hhit : getMessageByName pool name = some d) :
    (ps1 ++ pool :: ps2).findSome? (fun p => getMessageByName p name) = some d := by
  induction ps1 with
  | nil => simp [List.findSome?_cons, hhit]
  | cons q ps1 ih =>
    have hq := hmiss q (List.mem_cons_self q ps1)
    rw [List.cons_append, List.findSome?_cons, hq]
    exact ih (fun p hp => hmiss p (List.mem_cons_of_mem q hp))

theorem findSome?_all_miss {Dyn J : Type} (name : ByteStr)
    (pools : List (DescriptorPool Dyn J))
    (hmiss : ∀ p ∈ pools, getMessageByName p name = none) :
    pools.findSome? (fun p => getMessageByName p name) = none := by
  induction pools with
  | nil => rfl
  | cons q ps ih =>
    rw [List.findSome?_cons, hmiss q (List.mem_cons_self q ps)]
    exact ih (fun p hp => hmiss p (List.mem_cons_of_mem q hp))

/-- Repeated `add_file_descriptors` appends the user blobs after whatever
the node already holds (the default blob comes first). -/
theorem foldl_add_file_descriptor {Blob : Type} (bs : List Blob) (n : NodeDescriptors Blob) :
    (bs.foldl NodeDescriptors.add_file_descriptors n).file_descriptor =
      n.file_descriptor ++ bs := by
  induction bs generalizing n with
  | nil => simp
  | cons b bs ih =>
    simp only [List.foldl_cons, ih, NodeDescriptors.add_file_descriptors,
      List.append_assoc, List.singleton_append]

/-- Every error of `message_name_from_type_url` names the whole URL. -/
theorem message_name_error (url : ByteStr) (e : Error)
    (h : message_name_from_type_url url = Except.error e) :
    e = Error.invalidTypeUrl url := by
  rw [message_name_from_type_url] at h
  split at h
  next name hg => exact Except.noConfusion h
  next hg =>
    injection h with h2
    exact h2.symm

/-- Every error of `search_file_descriptors` is an `InvalidTypeUrl`. -/
theorem search_error_invalidTypeUrl {Dyn J : Type}
    (pools : List (DescriptorPool Dyn J)) (url : ByteStr) (e : Error)
    (h : search_file_descriptors pools url = Except.error e) :
    ∃ s, e = Error.invalidTypeUrl s := by
  rw [search_file_descriptors] at h
  split at h
  next e2 hn =>
    injection h with h2
    refine ⟨url, ?_⟩
    rw [← h2, message_name_error url e2 hn]
  next name hn =>
    split at h
    next d hf => exact Except.noConfusion h
    next hf =>
      injection h with h2
      exact ⟨name, h2.symm⟩

theorem gmd_cache_hit {Dyn J : Type} (s : UntypedSubscriber Dyn J) (u : ByteStr)
    (d : MessageDescriptor Dyn J) (hact : s.active_message_descriptor = some (u, d)) :
    s.get_message_descriptor u =
      (Except.ok d, { s with active_message_descriptor := some (u, d) }) := by
  rw [UntypedSubscriber.get_message_descriptor, hact]
  simp

theorem gmd_lookup_ok {Dyn J : Type} (s : UntypedSubscriber Dyn J) (u : ByteStr)
    (d : MessageDescriptor Dyn J)
    (hmiss : ∀ d2, s.active_message_descriptor ≠ some (u, d2))
    (hsearch : search_file_descriptors s.file_descriptor_pools u = Except.ok d) :
    s.get_message_descriptor u =
      (Except.ok d, { s with active_message_descriptor := some (u, d) }) := by
  rw [UntypedSubscriber.get_message_descriptor]
  cases hact : s.active_message_descriptor with
  | none => rw [hsearch]
  | some p =>
    obtain ⟨au, ad⟩ := p
    have hne : ¬ au = u := by
      intro h
      exact hmiss ad (by rw [← h]; exact hact)
    simp [hne, hsearch]

theorem gmd_lookup_err {Dyn J : Type} (s : UntypedSubscriber Dyn J) (u : ByteStr) (e : Error)
    (hmiss : ∀ d2, s.active_message_descriptor ≠ some (u, d2))
    (hsearch : search_file_descriptors s.file_descriptor_pools u = Except.error e) :
    s.get_message_descriptor u =
      (Except.error e, { s with active_message_descriptor := none }) := by
  rw [UntypedSubscriber.get_message_descriptor]
  cases hact : s.active_message_descriptor with
  | none => rw [hsearch]
  | some p =>
    obtain ⟨au, ad⟩ := p
    have hne : ¬ au = u := by
      intro h
      exact hmiss ad (by rw [← h]; exact hact)
    simp [hne, hsearch]

theorem get_message_descriptor_eq_search {Dyn J : Type} (s : UntypedSubscriber Dyn J)
    (hc : s.cacheConsistent) (u : ByteStr) :
    (s.get_message_descriptor u).1 = search_file_descriptors s.file_descriptor_pools u ∧
    (s.get_message_descriptor u).2.file_descriptor_pools = s.file_descriptor_pools ∧
    (s.get_message_descriptor u).2.cacheConsistent := by
  cases hact : s.active_message_descriptor with
  | none =>
    have hmiss : ∀ d2, s.active_message_descriptor ≠ some (u, d2) := by
      intro d2 h
      rw [hact] at h
      exact Option.noConfusion h
    cases hsearch : search_file_descriptors s.file_descriptor_pools u with
    | ok d =>
      rw [gmd_lookup_ok s u d hmiss hsearch]
      refine ⟨rfl, rfl, ?_⟩
      intro u2 d2 h2
      injection h2 with h3
      injection h3 with h4 h5
      rw [← h4, ← h5]
      exact hsearch
    | error e =>
      rw [gmd_lookup_err s u e hmiss hsearch]
      exact ⟨rfl, rfl, fun u2 d2 h2 => Option.noConfusion h2⟩
  | some p =>
    obtain ⟨au, ad⟩ := p
    by_cases heq : au = u
    · subst heq
      rw [gmd_cache_hit s au ad hact]
      refine ⟨(hc au ad hact).symm, rfl, ?_⟩
      intro u2 d2 h2
      injection h2 with h3
      injection h3 with h4 h5
      rw [← h4, ← h5]
      exact hc au ad hact
    · have hmiss : ∀ d2, s.active_message_descriptor ≠ some (u, d2) := by
        intro d2 h
        rw [hact] at h
        injection h with h3
        injection h3 with h4 h5
        exact heq h4
      cases hsearch : search_file_descriptors s.file_descriptor_pools u with
      | ok d =>
        rw [gmd_lookup_ok s u d hmiss hsearch]
        refine ⟨rfl, rfl, ?_⟩
        intro u2 d2 h2
        injection h2 with h3
        injection h3 with h4 h5
        rw [← h4, ← h5]
        exact hsearch
      | error e =>
        rw [gmd_lookup_err s u e hmiss hsearch]
        exact ⟨rfl, rfl, fun u2 d2 h2 => Option.noConfusion h2⟩

/-- One untyped `recv` preserves the cache invariant and the pools, and
every successfully returned dynamic message was decoded under the
descriptor that a fresh registry lookup of the header's type URL yields. -/
theorem recvDecode_hdr_none {Dyn J : Type} (s : UntypedSubscriber Dyn J) (bytes : ByteStr)
    (hhdr : Header.decodeLengthDelimited bytes = none) :
    s.recvDecode bytes = (Except.error Error.protobufDecode, s) := by
  rw [UntypedSubscriber.recvDecode, hhdr]

theorem recvDecode_gmd_err {Dyn J : Type} (s : UntypedSubscriber Dyn J) (bytes : ByteStr)
    (header : Header) (byteRef : ByteStr) (e : Error) (s2 : UntypedSubscriber Dyn J)
    (hhdr : Header.decodeLengthDelimited bytes = some (header, byteRef))
    (hgmd : s.get_message_descriptor header.type_url = (Except.error e, s2)) :
    s.recvDecode bytes = (Except.error e, s2) := by
  rw [UntypedSubscriber.recvDecode, hhdr]
  simp only [hgmd]

theorem recvDecode_varint_none {Dyn J : Type} (s : UntypedSubscriber Dyn J) (bytes : ByteStr)
    (header : Header) (byteRef : ByteStr) (d : MessageDescriptor Dyn J)
    (s2 : UntypedSubscriber Dyn J)
    (hhdr : Header.decodeLengthDelimited bytes = some (header, byteRef))
    (hgmd : s.get_message_descriptor header.type_url = (Except.ok d, s2))
    (hvar : varintDecode byteRef = none) :
    s.recvDecode bytes = (Except.error Error.protobufDecode, s2) := by
  rw [UntypedSubscriber.recvDecode, hhdr]
  simp only [hgmd, hvar]

theorem recvDecode_payload_none {Dyn J : Type} (s : UntypedSubscriber Dyn J) (bytes : ByteStr)
    (header : Header) (byteRef : ByteStr) (d : MessageDescriptor Dyn J)
    (s2 : UntypedSubscriber Dyn J) (len : Nat) (byteRef2 : ByteStr)
    (hhdr : Header.decodeLengthDelimited bytes = some (header, byteRef))
    (hgmd : s.get_message_descriptor header.type_url = (Except.ok d, s2))
    (hvar : varintDecode byteRef = some (len, byteRef2))
    (hdec : d.decode (byteRef2.take len) = none) :
    s.recvDecode bytes = (Except.error Error.protobufDecode, s2) := by
  rw [UntypedSubscriber.recvDecode, hhdr]
  simp only [hgmd, hvar, hdec]

theorem recvDecode_ok {Dyn J : Type} (s : UntypedSubscriber Dyn J) (bytes : ByteStr)
    (header : Header) (byteRef : ByteStr) (d : MessageDescriptor Dyn J)
    (s2 : UntypedSubscriber Dyn J) (len : Nat) (byteRef2 : ByteStr) (m : Dyn)
    (hhdr : Header.decodeLengthDelimited bytes = some (header, byteRef))
    (hgmd : s.get_message_descriptor header.type_url = (Except.ok d, s2))
    (hvar : varintDecode byteRef = some (len, byteRef2))
    (hdec : d.decode (byteRef2.take len) = some m) :
    s.recvDecode bytes = (Except.ok (header, m), s2) := by
  rw [UntypedSubscriber.recvDecode, hhdr]
  simp only [hgmd, hvar, hdec]

theorem recvDecode_step {Dyn J : Type} (s : UntypedSubscriber Dyn J)
    (hc : s.cacheConsistent) (frame : ByteStr) :
    (s.recvDecode frame).2.cacheConsistent ∧
    (s.recvDecode frame).2.file_descriptor_pools = s.file_descriptor_pools ∧
    ∀ header m, (s.recvDecode frame).1 = Except.ok (header, m) →
      ∃ byteRef d len byteRef2,
        Header.decodeLengthDelimited frame = some (header, byteRef) ∧
        search_file_descriptors s.file_descriptor_pools header.type_url = Except.ok d ∧
        varintDecode byteRef = some (len, byteRef2) ∧
        d.decode (byteRef2.take len) = some m := by
  cases hhdr : Header.decodeLengthDelimited frame with
  | none =>
    rw [recvDecode_hdr_none s frame hhdr]
    exact ⟨hc, rfl, fun header m h => Except.noConfusion h⟩
  | some p =>
    obtain ⟨header0, byteRef⟩ := p
    obtain ⟨hres, hpools, hc2⟩ := get_message_descriptor_eq_search s hc header0.type_url
    cases hgmd : s.get_message_descriptor header0.type_url with
    | mk r s2 =>
      rw [hgmd] at hres hpools hc2
      simp only at hres hpools hc2
      cases r with
      | error e =>
        rw [recvDecode_gmd_err s frame header0 byteRef e s2 hhdr hgmd]
        exact ⟨hc2, hpools, fun header m h => Except.noConfusion h⟩
      | ok d =>
        cases hvar : varintDecode byteRef with
        | none =>
          rw [recvDecode_varint_none s frame header0 byteRef d s2 hhdr hgmd hvar]
          exact ⟨hc2, hpools, fun header m h => Except.noConfusion h⟩
        | some q =>
          obtain ⟨len, byteRef2⟩ := q
          cases hdec : d.decode (byteRef2.take len) with
          | none =>
            rw [recvDecode_payload_none s frame header0 byteRef d s2 len byteRef2 hhdr hgmd hvar hdec]
            exact ⟨hc2, hpools, fun header m h => Except.noConfusion h⟩
          | some m0 =>
            rw [recvDecode_ok s frame header0 byteRef d s2 len byteRef2 m0 hhdr hgmd hvar hdec]
            refine ⟨hc2, hpools, fun header m h => ?_⟩
            have h2 : (header0, m0) = (header, m) := by
              injection h
            injection h2 with hh hm
            refine ⟨byteRef, d, len, byteRef2, ?_, ?_, hvar, ?_⟩
            · rw [← hh]
            · rw [← hh]; exact hres.symm
            · rw [← hm]; exact hdec

theorem recvAll_length {Dyn J : Type} (s : UntypedSubscriber Dyn J) (frames : List ByteStr) :
    (s.recvAll frames).length = frames.length := by
  induction frames generalizing s with
  | nil => rfl
  | cons f fs ih => simp [UntypedSubscriber.recvAll, ih]

/-! ## The claims -/
/-- Claim C1: for every protobuf schema `M` and instance `m`, decoding the
frame produced by a typed publisher's `send(m)` through a typed subscriber
expecting `M` succeeds and yields a header whose type URL is `M`'s type
URL together with a message bit-identical to `m`. -/
theorem framing_roundtrip {M : Type} (c : ProtoCodec M) (hc : c.Lawful)
    (now : Timestamp) (hnow : now.wf) (m : M) :
    Subscriber.recvDecode c (Publisher.sendFrame c now m) =
      Except.ok ({ message_timestamp := some now, type_url := c.typeUrl }, m) :=
  recvDecode_sendFrame c hc now hnow m

theorem framing_roundtrip_witness :
    Subscriber.recvDecode boolCodec
        (Publisher.sendFrame boolCodec { seconds := 1, nanos := 2 } true) =
      Except.ok ({ message_timestamp := some { seconds := 1, nanos := 2 },
                   type_url := [116, 47, 98] }, true) :=
  framing_roundtrip boolCodec (by intro m; cases m <;> rfl) { seconds := 1, nanos := 2 }
    (by decide) true

/-- Claim C2 (code evidence): after creating two publishers on the same
topic and dropping one, the registry's publisher set is empty although a
live publisher handle for that topic remains — the `HashSet` collapses the
two handles, so the first drop deletes the shared entry. -/
theorem registry_shared_topic_bug :
    ((sharedTopicOps.foldl applyOp initialLifecycleState).livePubs.map Prod.snd = [[116]]) ∧
    (sharedTopicOps.foldl applyOp initialLifecycleState).registry.publishers = [] := by
  decide

/-- Claim C6: a frame whose header type URL differs from the typed
subscriber's compile-time type URL yields exactly one
`MismatchedSubscriberType { expected, actual }`, without decoding the
payload; the frame is consumed and a well-typed next frame is delivered by
the following `recv`. -/
theorem mismatched_recv_consumes_frame {M : Type} (c : ProtoCodec M) (header : Header)
    (hw : header.wf) (hne : header.type_url ≠ c.typeUrl) (payload : ByteStr)
    (queue : List ByteStr) :
    Subscriber.recvStep c ((header.encodeLengthDelimited ++ payload) :: queue) =
      some (Except.error (Error.mismatchedSubscriberType c.typeUrl header.type_url), queue) ∧
    ∀ (hc : c.Lawful) (now : Timestamp), now.wf → ∀ (m : M) (queue2 : List ByteStr),
      Subscriber.recvStep c (Publisher.sendFrame c now m :: queue2) =
        some (Except.ok ({ message_timestamp := some now, type_url := c.typeUrl }, m),
          queue2) := by
  constructor
  · simp only [Subscriber.recvStep]
    rw [recvDecode_mismatch c header hw payload hne]
  · intro hc now hnow m queue2
    simp only [Subscriber.recvStep]
    rw [recvDecode_sendFrame c hc now hnow m]

theorem mismatched_recv_consumes_frame_witness :
    Subscriber.recvStep boolCodec
        ((Header.encodeLengthDelimited (Header.mk (some (Timestamp.mk 0 0)) [120]) ++ [7])
          :: [[9]]) =
      some (Except.error (Error.mismatchedSubscriberType [116, 47, 98] [120]), [[9]]) ∧
    ∀ (hc : boolCodec.Lawful) (now : Timestamp), now.wf →
      ∀ (m : Bool) (queue2 : List ByteStr),
      Subscriber.recvStep boolCodec (Publisher.sendFrame boolCodec now m :: queue2) =
        some (Except.ok ({ message_timestamp := some now, type_url := [116, 47, 98] }, m),
          queue2) :=
  mismatched_recv_consumes_frame boolCodec (Header.mk (some (Timestamp.mk 0 0)) [120])
    (by decide) (by decide) [7] [[9]]

/-- Claim C9: both subscriber constructors set the inbound queue bound to
exactly 100 frames. -/
theorem subscriber_queue_capacity :
    (∀ (topic : ByteStr) (reg : PubsubData),
       (Subscriber.new_from_session topic reg).1.queueCapacity = 100) ∧
    (∀ (Dyn J Blob : Type) (decodePool : Blob → Except Error (DescriptorPool Dyn J))
       (topic : ByteStr) (blobs : List Blob) (reg : PubsubData)
       (s : UntypedSubscriber Dyn J) (reg2 : PubsubData),
       UntypedSubscriber.new_from_session decodePool topic blobs reg = (Except.ok s, reg2) →
       s.queueCapacity = 100) := by
  constructor
  · intro topic reg
    rfl
  · intro Dyn J Blob decodePool topic blobs reg s reg2 h
    rw [UntypedSubscriber.new_from_session] at h
    cases hp : parse_file_descriptors decodePool blobs with
    | error e =>
      rw [hp] at h
      injection h with h1 h2
      exact Except.noConfusion h1
    | ok pools =>
      rw [hp] at h
      injection h with h1 h2
      injection h1 with h3
      rw [← h3]

theorem subscriber_queue_capacity_witness :
    (Subscriber.new_from_session [116]
        { publishers := [], subscribers := [] }).1.queueCapacity = 100 ∧
    ({ file_descriptor_pools := [boolPool], active_message_descriptor := none,
       topic := [116], queueCapacity := 100 } : UntypedSubscriber Bool Bool).queueCapacity
      = 100 :=
  ⟨subscriber_queue_capacity.1 [116] { publishers := [], subscribers := [] },
   subscriber_queue_capacity.2 Bool Bool Nat (fun _ => Except.ok boolPool) [116] [0]
     { publishers := [], subscribers := [] }
     { file_descriptor_pools := [boolPool], active_message_descriptor := none,
       topic := [116], queueCapacity := 100 }
     { publishers := [], subscribers := insertTopic [116] [] } rfl⟩

/-- Claim C3: over any sequence of received frames, the dynamic message
returned for frame `i` is decoded under the descriptor that the registry
resolves for that frame's header type URL — the one-slot cache never
supplies a stale descriptor. -/
theorem cache_resolves_each_frame {Dyn J : Type} (s : UntypedSubscriber Dyn J)
    (hc : s.cacheConsistent) (frames : List ByteStr) (i : Nat) (hi : i < frames.length)
    (hlen : i < (s.recvAll frames).length) (header : Header) (m : Dyn)
    (hok : (s.recvAll frames).get ⟨i, hlen⟩ = Except.ok (header, m)) :
    ∃ byteRef d len byteRef2,
      Header.decodeLengthDelimited (frames.get ⟨i, hi⟩) = some (header, byteRef) ∧
      search_file_descriptors s.file_descriptor_pools header.type_url = Except.ok d ∧
      varintDecode byteRef = some (len, byteRef2) ∧
      d.decode (byteRef2.take len) = some m := by
  induction frames generalizing s i with
  | nil => exact absurd hi (by simp)
  | cons f fs ih =>
    obtain ⟨hc2, hpools, hstep⟩ := recvDecode_step s hc f
    cases i with
    | zero =>
      simp only [UntypedSubscriber.recvAll, List.get_cons_zero] at hok
      exact hstep header m hok
    | succ j =>
      simp only [UntypedSubscriber.recvAll, List.get_cons_succ] at hok
      have hj : j < fs.length := by
        simp only [List.length_cons] at hi
        omega
      have hjlen : j < ((s.recvDecode f).2.recvAll fs).length := by
        rw [recvAll_length]
        exact hj
      have := ih (s.recvDecode f).2 hc2 j hj hjlen (by exact hok)
      rw [hpools] at this
      exact this

theorem cache_resolves_each_frame_witness :
    ∃ byteRef d len byteRef2,
      Header.decodeLengthDelimited (([witFrame] : List ByteStr).get ⟨0, by decide⟩) =
        some (Header.mk none [97, 47, 98], byteRef) ∧
      search_file_descriptors witSubscriber.file_descriptor_pools
        (Header.mk none [97, 47, 98]).type_url = Except.ok d ∧
      varintDecode byteRef = some (len, byteRef2) ∧
      d.decode (byteRef2.take len) = some 1 :=
  cache_resolves_each_frame witSubscriber (fun u d h => Option.noConfusion h)
    [witFrame] 0 (by decide) (by decide) (Header.mk none [97, 47, 98]) 1 rfl

/-- Claim C10: when a frame's header type URL resolves in no descriptor
pool, `recv` surfaces the resolution error and leaves the one-slot cache
empty, so the next lookup — for any type URL, in particular the one cached
before the failure — goes to the registry afresh. -/
theorem failed_resolution_clears_cache {Dyn J : Type} (s : UntypedSubscriber Dyn J)
    (hc : s.cacheConsistent) (frame : ByteStr) (header : Header) (byteRef : ByteStr)
    (e : Error)
    (hhdr : Header.decodeLengthDelimited frame = some (header, byteRef))
    (hfail : search_file_descriptors s.file_descriptor_pools header.type_url =
      Except.error e) :
    (s.recvDecode frame).1 = Except.error e ∧
    (s.recvDecode frame).2.active_message_descriptor = none ∧
    ∀ u : ByteStr, ((s.recvDecode frame).2.get_message_descriptor u).1 =
      search_file_descriptors s.file_descriptor_pools u := by
  have hmiss : ∀ d2, s.active_message_descriptor ≠ some (header.type_url, d2) := by
    intro d2 h
    have hcd := hc header.type_url d2 h
    rw [hfail] at hcd
    exact Except.noConfusion hcd
  have hgmd := gmd_lookup_err s header.type_url e hmiss hfail
  rw [recvDecode_gmd_err s frame header byteRef e _ hhdr hgmd]
  refine ⟨rfl, rfl, ?_⟩
  intro u
  cases hsearch : search_file_descriptors s.file_descriptor_pools u with
  | ok d =>
    rw [gmd_lookup_ok { s with active_message_descriptor := none } u d
      (fun d2 h => Option.noConfusion h) hsearch]
  | error e2 =>
    rw [gmd_lookup_err { s with active_message_descriptor := none } u e2
      (fun d2 h => Option.noConfusion h) hsearch]

theorem failed_resolution_clears_cache_witness :
    (witSubscriber.recvDecode witBadFrame).1 = Except.error (Error.invalidTypeUrl [99]) ∧
    (witSubscriber.recvDecode witBadFrame).2.active_message_descriptor = none ∧
    ∀ u : ByteStr,
      (((witSubscriber.recvDecode witBadFrame).2).get_message_descriptor u).1 =
        search_file_descriptors witSubscriber.file_descriptor_pools u :=
  failed_resolution_clears_cache witSubscriber (fun u d h => Option.noConfusion h)
    witBadFrame (Header.mk none [97, 47, 99]) (lengthDelimited [5])
    (Error.invalidTypeUrl [99]) (by rfl) (by rfl)

/-- Claim C4 counterexample: resolution does not use the whole part after
the first slash.  On the URL 97/47/98/47/99 (two slashes) the code selects
the middle chunk 98, not the suffix 98/47/99. -/
theorem type_url_not_suffix_counterexample :
    ¬ ∀ (url name : ByteStr), message_name_from_type_url url = Except.ok name →
        partAfterFirstSlash url = some name := by
  intro hcl
  have h := hcl [97, 47, 98, 47, 99] [98] rfl
  exact absurd h (by decide)

/-- Claim C4 (amended): resolution uses as message name the second
slash-separated segment of the type URL — the part between the first
slash and the following one, if any — and a type URL containing no slash
fails with `InvalidTypeUrl` of the whole URL. -/
theorem type_url_second_segment (url : ByteStr) :
    ((47 : Nat) ∉ url →
      message_name_from_type_url url = Except.error (Error.invalidTypeUrl url)) ∧
    ∀ pre post : ByteStr, (47 : Nat) ∉ pre → url = pre ++ 47 :: post →
      message_name_from_type_url url = Except.ok (post.takeWhile (fun b => b != 47)) := by
  constructor
  · exact message_name_no_sep url
  · intro pre post hpre hurl
    rw [hurl]
    exact message_name_second_chunk pre post hpre

theorem type_url_second_segment_witness :
    message_name_from_type_url [97, 47, 98, 47, 99] =
      Except.ok (([98, 47, 99] : ByteStr).takeWhile (fun b => b != 47)) :=
  (type_url_second_segment [97, 47, 98, 47, 99]).2 [97] [98, 47, 99]
    (by decide) (by decide)

/-- Claim C5: a frame from a typed publisher for schema `M` decodes
through an untyped subscriber whose pools resolve `M`'s type URL to a
descriptor agreeing with `M`'s codec, yielding the dynamic image of the
message; conversely a frame from an untyped publisher built with `M`'s
type URL decodes through a typed subscriber expecting `M`. -/
theorem untyped_equivalence {M Dyn J : Type} (c : ProtoCodec M) (hc : c.Lawful)
    (s : UntypedSubscriber Dyn J) (hcache : s.cacheConsistent)
    (d : MessageDescriptor Dyn J) (toDyn : M → Dyn)
    (hres : search_file_descriptors s.file_descriptor_pools c.typeUrl = Except.ok d)
    (hdyn : ∀ m2, d.decode (c.encode m2) = some (toDyn m2))
    (now : Timestamp) (hnow : now.wf) (m : M) :
    (s.recvDecode (Publisher.sendFrame c now m)).1 =
      Except.ok ({ message_timestamp := some now, type_url := c.typeUrl }, toDyn m) ∧
    ∀ (p : UntypedPublisher Dyn J) (v : J) (dynm : Dyn) (frame : ByteStr),
      p.type_url = c.typeUrl →
      p.message_descriptor.deserializeJson v = some dynm →
      c.decode (p.message_descriptor.encodeDyn dynm) = some m →
      p.sendFrame now v = Except.ok frame →
      Subscriber.recvDecode c frame =
        Except.ok ({ message_timestamp := some now, type_url := c.typeUrl }, m) := by
  have hw : Header.wf { message_timestamp := some now, type_url := c.typeUrl } := hnow
  constructor
  · have hhdr : Header.decodeLengthDelimited (Publisher.sendFrame c now m) =
        some ({ message_timestamp := some now, type_url := c.typeUrl },
          c.encodeLengthDelimited m) := by
      rw [Publisher.sendFrame]
      exact Header.decode_encode _ hw _
    have h1 : (s.get_message_descriptor c.typeUrl).1 = Except.ok d := by
      rw [(get_message_descriptor_eq_search s hcache c.typeUrl).1, hres]
    have hgmd : s.get_message_descriptor c.typeUrl =
        (Except.ok d, (s.get_message_descriptor c.typeUrl).2) := by
      rw [← h1]
    have hvar : varintDecode (c.encodeLengthDelimited m) =
        some ((c.encode m).length, c.encode m) := by
      rw [ProtoCodec.encodeLengthDelimited, lengthDelimited]
      exact varintDecode_encode (c.encode m).length (c.encode m)
    have hdec : d.decode ((c.encode m).take (c.encode m).length) = some (toDyn m) := by
      rw [List.take_length]
      exact hdyn m
    rw [recvDecode_ok s (Publisher.sendFrame c now m)
      { message_timestamp := some now, type_url := c.typeUrl }
      (c.encodeLengthDelimited m) d (s.get_message_descriptor c.typeUrl).2
      (c.encode m).length (c.encode m) (toDyn m) hhdr hgmd hvar hdec]
  · intro p v dynm frame hurl hjson hdec hsend
    rw [UntypedPublisher.sendFrame, hjson] at hsend
    injection hsend with hframe
    rw [← hframe, hurl, Subscriber.recvDecode,
      Header.decode_encode { message_timestamp := some now, type_url := c.typeUrl } hw
        (lengthDelimited (p.message_descriptor.encodeDyn dynm))]
    simp [ProtoCodec.decodeLengthDelimited, readLengthDelimited_exact, hdec]

theorem untyped_equivalence_witness :
    (boolUntypedSubscriber.recvDecode
        (Publisher.sendFrame boolCodec (Timestamp.mk 3 4) true)).1 =
      Except.ok ({ message_timestamp := some (Timestamp.mk 3 4),
                   type_url := [116, 47, 98] }, true) ∧
    ∀ (p : UntypedPublisher Bool Bool) (v : Bool) (dynm : Bool) (frame : ByteStr),
      p.type_url = [116, 47, 98] →
      p.message_descriptor.deserializeJson v = some dynm →
      boolCodec.decode (p.message_descriptor.encodeDyn dynm) = some true →
      p.sendFrame (Timestamp.mk 3 4) v = Except.ok frame →
      Subscriber.recvDecode boolCodec frame =
        Except.ok ({ message_timestamp := some (Timestamp.mk 3 4),
                     type_url := [116, 47, 98] }, true) :=
  untyped_equivalence boolCodec (by intro m; cases m <;> rfl)
    boolUntypedSubscriber (fun u d h => Option.noConfusion h)
    boolDescriptor (fun b => b) rfl (by intro m2; cases m2 <;> rfl)
    (Timestamp.mk 3 4) (by decide) true

/-- Claim C7: when the untyped publisher's constructor cannot resolve its
type URL against the parsed descriptor pools, construction fails with an
`InvalidTypeUrl`, no transport publisher is declared, and the registry is
unchanged. -/
theorem untyped_publisher_invalid_url {Dyn J Blob : Type}
    (decodePool : Blob → Except Error (DescriptorPool Dyn J))
    (topic type_url : ByteStr) (reg : PubsubData) (blobs : List Blob)
    (pools : List (DescriptorPool Dyn J)) (e : Error)
    (hp : parse_file_descriptors decodePool blobs = Except.ok pools)
    (hs : search_file_descriptors pools type_url = Except.error e) :
    UntypedPublisher.new_from_session decodePool topic type_url reg blobs =
      ((Except.error e : Except Error (UntypedPublisher Dyn J)), false, reg) ∧
    ∃ u, e = Error.invalidTypeUrl u := by
  constructor
  · rw [UntypedPublisher.new_from_session]
    simp only [hp, hs]
  · exact search_error_invalidTypeUrl pools type_url e hs

theorem untyped_publisher_invalid_url_witness :
    UntypedPublisher.new_from_session (fun _ => Except.ok boolPool) [116] [97, 47, 99]
        { publishers := [], subscribers := [] } [0] =
      ((Except.error (Error.invalidTypeUrl [99]) : Except Error (UntypedPublisher Bool Bool)),
        false, { publishers := [], subscribers := [] }) ∧
    ∃ u, Error.invalidTypeUrl [99] = Error.invalidTypeUrl u :=
  untyped_publisher_invalid_url (fun _ => Except.ok boolPool) [116] [97, 47, 99]
    { publishers := [], subscribers := [] } [0] [boolPool]
    (Error.invalidTypeUrl [99]) rfl rfl

/-- Claim C8: `search_file_descriptors` walks the pools in insertion order
and returns the first match; when no pool knows the name it fails with
`InvalidTypeUrl(message_name)`; and since `Node` appends user blobs after
its built-in default blob, a name collision resolves to the default
blob's descriptor. -/
theorem descriptor_search_order {Dyn J Blob : Type} :
    (∀ (ps1 ps2 : List (DescriptorPool Dyn J)) (pool : DescriptorPool Dyn J)
       (url name : ByteStr) (d : MessageDescriptor Dyn J),
       message_name_from_type_url url = Except.ok name →
       (∀ p ∈ ps1, getMessageByName p name = none) →
       getMessageByName pool name = some d →
       search_file_descriptors (ps1 ++ pool :: ps2) url = Except.ok d) ∧
    (∀ (pools : List (DescriptorPool Dyn J)) (url name : ByteStr),
       message_name_from_type_url url = Except.ok name →
       (∀ p ∈ pools, getMessageByName p name = none) →
       search_file_descriptors pools url = Except.error (Error.invalidTypeUrl name)) ∧
    (∀ (decodePool : Blob → Except Error (DescriptorPool Dyn J))
       (defaultBlob : Blob) (userBlobs : List Blob)
       (pools : List (DescriptorPool Dyn J)) (dp : DescriptorPool Dyn J)
       (url name : ByteStr) (d : MessageDescriptor Dyn J),
       message_name_from_type_url url = Except.ok name →
       parse_file_descriptors decodePool
         (userBlobs.foldl NodeDescriptors.add_file_descriptors
           (NodeDescriptors.new defaultBlob)).file_descriptor = Except.ok pools →
       decodePool defaultBlob = Except.ok dp →
       getMessageByName dp name = some d →
       search_file_descriptors pools url = Except.ok d) := by
  refine ⟨?_, ?_, ?_⟩
  · intro ps1 ps2 pool url name d hname hmiss hhit
    rw [search_file_descriptors]
    simp only [hname, findSome?_first_hit name d ps1 ps2 pool hmiss hhit]
  · intro pools url name hname hmiss
    rw [search_file_descriptors]
    simp only [hname, findSome?_all_miss name pools hmiss]
  · intro decodePool defaultBlob userBlobs pools dp url name d hname hp hdp hhit
    rw [foldl_add_file_descriptor, parse_file_descriptors] at hp
    have hfd : (NodeDescriptors.new defaultBlob).file_descriptor ++ userBlobs =
        defaultBlob :: userBlobs := rfl
    rw [hfd, List.mapM_cons, hdp] at hp
    cases hrest : userBlobs.mapM decodePool with
    | error e2 =>
      rw [hrest] at hp
      exact Except.noConfusion hp
    | ok rest =>
      rw [hrest] at hp
      injection hp with hpools
      rw [← hpools, search_file_descriptors]
      simp only [hname, List.findSome?_cons, hhit]

theorem descriptor_search_order_witness :
    search_file_descriptors [boolPool] [116, 47, 98] = Except.ok boolDescriptor ∧
    search_file_descriptors ([boolPool] : List (DescriptorPool Bool Bool)) [97, 47, 99] =
      Except.error (Error.invalidTypeUrl [99]) ∧
    search_file_descriptors [boolPool] [116, 47, 98] = Except.ok boolDescriptor :=
  ⟨(@descriptor_search_order Bool Bool Nat).1 [] [] boolPool [116, 47, 98] [98]
     boolDescriptor rfl (fun p hp => absurd hp (List.not_mem_nil p)) rfl,
   (@descriptor_search_order Bool Bool Nat).2.1 [boolPool] [97, 47, 99] [99] rfl
     (by
       intro p hp
       rw [List.mem_singleton] at hp
       rw [hp]
       rfl),
   (@descriptor_search_order Bool Bool Nat).2.2 (fun _ => Except.ok boolPool) 0 []
     [boolPool] boolPool [116, 47, 98] [98] boolDescriptor rfl rfl rfl rfl⟩

end Robotica
